import Mathlib

/-!
Verification of the order lifecycle subsystem of the vendor webserver.

The definitions below are a shallow embedding of the JavaScript source:

* `Status`, `OrderRec` — the order document (`models/order`), restricted to
  the fields the order state machine reads or writes.
* `findById`, `findOneAndUpdate`, `transitionOrderAtomic` — the MongoDB
  operations used by the controllers, modelled on a list of order records
  (the first record matching the query is updated).
* `acceptOrder`, `rejectOrder`, `startOrder`, `completeOrder`,
  `cancelOrder` — the vendor order controller handlers.
* `listOrdersForVendor`, `getOrderForVendor` — the orders service reads.
* `notifyCustomerOrderUpdate` — the customer webhook retry loop.
* `findNearbyOnlineVendors`, `assignVendorToOrder` — the dispatcher.
* `vendorUpdateOrder` — the order block of the `/vendor-update` route.

Machine timestamps (`new Date()`) are modelled as natural numbers supplied
by the caller (`now`).  Mongo ObjectIds are modelled as naturals.
-/

/-- Order status enum of the order schema. -/
inductive Status where
  | pending
  | assigned
  | accepted
  | rejected
  | in_progress
  | payment_requested
  | payment_confirmed
  | arrival_confirmed
  | completed
  | cancelled
deriving DecidableEq, Repr

/-- String form of each status, as stored in the database. -/
def statusStr : Status → String
  | Status.pending => "pending"
  | Status.assigned => "assigned"
  | Status.accepted => "accepted"
  | Status.rejected => "rejected"
  | Status.in_progress => "in_progress"
  | Status.payment_requested => "payment_requested"
  | Status.payment_confirmed => "payment_confirmed"
  | Status.arrival_confirmed => "arrival_confirmed"
  | Status.completed => "completed"
  | Status.cancelled => "cancelled"

/-- Geographic point, stored as (lng, lat) like the GeoJSON coordinates array. -/
abbrev Point : Type := Int × Int

/-- An order document, restricted to the fields used by the state machine.
`pickup` keeps only the coordinates; timestamps are `Option Nat`
(`none` = field absent). `rejectionReason` models `metadata.rejectionReason`. -/
structure OrderRec where
  id : Nat
  customerId : Option Nat
  vendorId : Option Nat
  status : Status
  pickup : Point
  createdAt : Option Nat
  assignedAt : Option Nat
  acceptedAt : Option Nat
  completedAt : Option Nat
  cancelledAt : Option Nat
  cancellationReason : Option String
  cancelledBy : Option String
  rejectionReason : Option String
deriving DecidableEq, Repr

/-- The order collection: a list of order documents. -/
abbrev Store : Type := List OrderRec

/-- `Order.findById(orderId)`: first document with the given id. -/
def findById (store : Store) (orderId : Nat) : Option OrderRec :=
  store.find? (fun o => decide (o.id = orderId))

/-- `Order.findOneAndUpdate(query, { $set: ... }, { new: true })`:
updates the first document matching the query atomically and returns the
updated document, or returns `none` leaving the collection unchanged. -/
def findOneAndUpdate : Store → (OrderRec → Bool) → (OrderRec → OrderRec) → Store × Option OrderRec
  | [], _, _ => ([], none)
  | o :: rest, q, f =>
    if q o then (f o :: rest, some (f o))
    else
      let r := findOneAndUpdate rest q f
      (o :: r.1, r.2)

/-- `ordersService.transitionOrderAtomic(orderId, condition, update)`:
a `findOneAndUpdate` on `{ _id: orderId, ...condition }`. -/
def transitionOrderAtomic (store : Store) (orderId : Nat)
    (cond : OrderRec → Bool) (upd : OrderRec → OrderRec) : Store × Option OrderRec :=
  findOneAndUpdate store (fun o => decide (o.id = orderId) && cond o) upd

/-- HTTP response of a handler: success with the returned order document, or
an error with its HTTP status code and error message. -/
inductive Resp where
  | ok (order : OrderRec)
  | err (code : Nat) (msg : String)
deriving DecidableEq, Repr

def msgOrderNotFound : String := "Order not found"

def msgConflict : String := "Order transition conflict"

def msgAlreadyAcceptedByAnother : String := "Order already accepted by another vendor"

def msgAssignedToAnother : String := "Order assigned to another vendor"

def msgAlreadyClaimed : String := "Order already claimed or not available"

def msgInvalidTransition : String := "Invalid transition or not assigned to you"

def msgInternalError : String := "Internal server error"

/-- Message `Cannot accept order in ... status`. -/
def cannotAcceptMsg (s : Status) : String :=
  "Cannot accept order in " ++ statusStr s ++ " status"

/-- Message `Cannot reject order in ... status`. -/
def cannotRejectMsg (s : Status) : String :=
  "Cannot reject order in " ++ statusStr s ++ " status"

/-- Message `Cannot cancel order in ... status`. -/
def cannotCancelMsg (s : Status) : String :=
  "Cannot cancel order in " ++ statusStr s ++ " status"

def rejectedByVendorDefault : String := "Rejected by vendor"

def cancelledByVendorDefault : String := "Cancelled by vendor"

def byVendor : String := "vendor"

/-- The conditional update executed by `acceptOrder` when the order was read
in `assigned` status: `findOneAndUpdate({_id, status: 'assigned', vendorId},
{$set: {status: 'accepted', acceptedAt: now}})`. -/
def acceptAssignedUpdate (store : Store) (orderId vendorId now : Nat) : Store × Option OrderRec :=
  findOneAndUpdate store
    (fun o => decide (o.id = orderId ∧ o.status = Status.assigned ∧ o.vendorId = some vendorId))
    (fun o => { o with status := Status.accepted, acceptedAt := some now })

/-- The atomic claim executed by `acceptOrder` when the order was read in
`pending` status: `transitionOrderAtomic(orderId, {status: 'pending'},
{vendorId, status: 'accepted', acceptedAt: now, assignedAt: now})`. -/
def acceptPendingUpdate (store : Store) (orderId vendorId now : Nat) : Store × Option OrderRec :=
  transitionOrderAtomic store orderId
    (fun o => decide (o.status = Status.pending))
    (fun o => { o with vendorId := some vendorId, status := Status.accepted,
                       acceptedAt := some now, assignedAt := some now })

/-- `acceptOrder` handler (`POST /api/orders/:id/accept`). -/
def acceptOrder (store : Store) (vendorId orderId now : Nat) : Store × Resp :=
  match findById store orderId with
  | none => (store, Resp.err 404 msgOrderNotFound)
  | some existing =>
    if existing.status = Status.accepted then
      if existing.vendorId = some vendorId then
        if existing.acceptedAt.isSome then
          (store, Resp.ok existing)
        else
          (store, Resp.err 400 (cannotAcceptMsg existing.status))
      else if existing.vendorId.isSome then
        (store, Resp.err 409 msgAlreadyAcceptedByAnother)
      else
        (store, Resp.err 400 (cannotAcceptMsg existing.status))
    else if existing.status = Status.assigned then
      if existing.vendorId ≠ some vendorId then
        (store, Resp.err 403 msgAssignedToAnother)
      else
        match acceptAssignedUpdate store orderId vendorId now with
        | (s2, some u) => (s2, Resp.ok u)
        | (_, none) => (store, Resp.err 409 msgConflict)
    else if existing.status = Status.pending then
      match acceptPendingUpdate store orderId vendorId now with
      | (s2, some u) => (s2, Resp.ok u)
      | (_, none) => (store, Resp.err 409 msgAlreadyClaimed)
    else
      (store, Resp.err 400 (cannotAcceptMsg existing.status))

/-- The conditional update executed by `rejectOrder`: the query is `{_id}`
plus the status that was read (`pending` or `assigned`); the update maps a
pending order to `rejected` and any other to `cancelled`, setting
`cancelledAt`, `metadata.rejectionReason` and `cancelledBy`. -/
def rejectUpdate (store : Store) (orderId : Nat) (expSt : Status) (now : Nat)
    (reason : Option String) : Store × Option OrderRec :=
  findOneAndUpdate store
    (fun o => decide (o.id = orderId ∧ o.status = expSt))
    (fun o => { o with
        status := if expSt = Status.pending then Status.rejected else Status.cancelled,
        cancelledAt := some now,
        rejectionReason := some (reason.getD rejectedByVendorDefault),
        cancelledBy := some byVendor })

/-- `rejectOrder` handler (`POST /api/orders/:id/reject`). -/
def rejectOrder (store : Store) (vendorId orderId now : Nat) (reason : Option String) :
    Store × Resp :=
  match findById store orderId with
  | none => (store, Resp.err 404 msgOrderNotFound)
  | some order =>
    if ¬(order.status = Status.pending ∨
        (order.status = Status.assigned ∧ order.vendorId = some vendorId)) then
      (store, Resp.err 400 (cannotRejectMsg order.status))
    else
      match rejectUpdate store orderId order.status now reason with
      | (s2, some u) => (s2, Resp.ok u)
      | (_, none) => (store, Resp.err 409 msgConflict)

/-- The conditional update executed by `startOrder`:
`transitionOrderAtomic(orderId, {status: 'accepted', vendorId},
{status: 'in_progress', assignedAt: now, acceptedAt: now})`.
Note that the update overwrites `assignedAt` and `acceptedAt`. -/
def startUpdate (store : Store) (orderId vendorId now : Nat) : Store × Option OrderRec :=
  transitionOrderAtomic store orderId
    (fun o => decide (o.status = Status.accepted ∧ o.vendorId = some vendorId))
    (fun o => { o with status := Status.in_progress,
                       assignedAt := some now, acceptedAt := some now })

/-- `startOrder` handler (`POST /api/orders/:id/start`): every failure is
reported as a single `400` response. -/
def startOrder (store : Store) (vendorId orderId now : Nat) : Store × Resp :=
  match startUpdate store orderId vendorId now with
  | (s2, some u) => (s2, Resp.ok u)
  | (_, none) => (store, Resp.err 400 msgInvalidTransition)

/-- The conditional update executed by `completeOrder`:
`transitionOrderAtomic(orderId, {status: 'in_progress', vendorId},
{status: 'completed', completedAt: now})`. -/
def completeUpdate (store : Store) (orderId vendorId now : Nat) : Store × Option OrderRec :=
  transitionOrderAtomic store orderId
    (fun o => decide (o.status = Status.in_progress ∧ o.vendorId = some vendorId))
    (fun o => { o with status := Status.completed, completedAt := some now })

/-- `completeOrder` handler (`POST /api/orders/:id/complete`): every failure
is reported as a single `400` response. -/
def completeOrder (store : Store) (vendorId orderId now : Nat) : Store × Resp :=
  match completeUpdate store orderId vendorId now with
  | (s2, some u) => (s2, Resp.ok u)
  | (_, none) => (store, Resp.err 400 msgInvalidTransition)

/-- The update executed by `cancelOrder`: `findOneAndUpdate({_id: orderId},
{$set: {status: 'cancelled', cancelledAt, cancellationReason, cancelledBy}})` —
conditioned only on the order id. -/
def cancelUpdate (store : Store) (orderId now : Nat) (reason : Option String) :
    Store × Option OrderRec :=
  findOneAndUpdate store
    (fun o => decide (o.id = orderId))
    (fun o => { o with
        status := Status.cancelled,
        cancelledAt := some now,
        cancellationReason := some (reason.getD cancelledByVendorDefault),
        cancelledBy := some byVendor })

/-- `cancelOrder` handler (`POST /api/orders/:id/cancel`).  The caller's
vendor id is never compared with the order's `vendorId`; the status is only
checked on a separate read before the unconditional update. -/
def cancelOrder (store : Store) (_vendorId orderId now : Nat) (reason : Option String) :
    Store × Resp :=
  match findById store orderId with
  | none => (store, Resp.err 404 msgOrderNotFound)
  | some order =>
    if ¬(order.status = Status.accepted ∨ order.status = Status.in_progress) then
      (store, Resp.err 400 (cannotCancelMsg order.status))
    else
      match cancelUpdate store orderId now reason with
      | (s2, some u) => (s2, Resp.ok u)
      | (s2, none) => (s2, Resp.err 500 msgInternalError)

/-- Insertion step for sorting by `createdAt` descending (the
`.sort({createdAt: -1})` of `listOrdersForVendor`); absent dates sort as 0. -/
def insertByCreated (o : OrderRec) : List OrderRec → List OrderRec
  | [] => [o]
  | b :: rest =>
    if b.createdAt.getD 0 ≤ o.createdAt.getD 0 then o :: b :: rest
    else b :: insertByCreated o rest

/-- Sort a list of orders by `createdAt` descending. -/
def sortByCreatedDesc : List OrderRec → List OrderRec
  | [] => []
  | o :: rest => insertByCreated o (sortByCreatedDesc rest)

/-- The `status` query parameter of `GET /api/orders`: absent, the external
alias `started`, or a concrete status string. -/
inductive StatusParam where
  | noFilter
  | started
  | exact (s : Status)
deriving DecidableEq, Repr

/-- The `$or` base query of the orders service: orders assigned to this
vendor, or unassigned pending orders. -/
def baseVendorQuery (vendorId : Nat) (o : OrderRec) : Bool :=
  decide (o.vendorId = some vendorId) ||
    (decide (o.vendorId = none) && decide (o.status = Status.pending))

/-- The `started` alias of the status parameter is rewritten to the
internal `in_progress` before filtering. -/
def normalizeStatusParam : StatusParam → StatusParam
  | StatusParam.started => StatusParam.exact Status.in_progress
  | x => x

/-- The effective query of `listOrdersForVendor` after the alias rewrite
and the status filter are applied. -/
def listQuery (vendorId : Nat) (sp : StatusParam) (o : OrderRec) : Bool :=
  match normalizeStatusParam sp with
  | StatusParam.exact s =>
    if s = Status.pending then
      decide (o.vendorId = none) && decide (o.status = Status.pending)
    else
      decide (o.vendorId = some vendorId) && decide (o.status = s)
  | _ => baseVendorQuery vendorId o

/-- Result of `listOrdersForVendor`: the count and the page of orders. -/
structure ListResult where
  total : Nat
  orders : List OrderRec
deriving DecidableEq, Repr

/-- `ordersService.listOrdersForVendor(vendorId, {status, limit, offset})`:
filter, sort by `createdAt` descending, skip `offset`, take
`min(limit || 50, 200)`. -/
def listOrdersForVendor (store : Store) (vendorId : Nat) (sp : StatusParam)
    (limit offset : Nat) : ListResult :=
  let q := listQuery vendorId sp
  let filtered := store.filter q
  let lim := min (if limit = 0 then 50 else limit) 200
  { total := filtered.length,
    orders := ((sortByCreatedDesc filtered).drop offset).take lim }

/-- `ordersService.getOrderForVendor(vendorId, orderId)`: `findOne` with the
order id and the same `$or` visibility condition. -/
def getOrderForVendor (store : Store) (vendorId orderId : Nat) : Option OrderRec :=
  store.find? (fun o => decide (o.id = orderId) && baseVendorQuery vendorId o)

/-- Outcome of one webhook HTTP attempt: a response with an HTTP status
code, or a network failure (connection refused / timeout, no response). -/
inductive AttemptResult where
  | http (code : Nat)
  | netfail
deriving DecidableEq, Repr

/-- Axios `validateStatus`: a response is a success iff `200 <= s < 300`. -/
def isSuccessStatus : AttemptResult → Bool
  | AttemptResult.http c => decide (200 ≤ c ∧ c < 300)
  | AttemptResult.netfail => false

/-- Non-retryable client error: a 4xx response other than 408 and 429. -/
def isNonRetryable : AttemptResult → Bool
  | AttemptResult.http c => decide (400 ≤ c ∧ c < 500 ∧ c ≠ 408 ∧ c ≠ 429)
  | AttemptResult.netfail => false

/-- Result of the webhook delivery loop: final success flag, number of HTTP
attempts actually made, and the list of backoff delays (ms) slept between
attempts. -/
structure WebhookOutcome where
  success : Bool
  attemptsMade : Nat
  delays : List Nat
deriving DecidableEq, Repr

/-- The retry loop body of `notifyCustomerOrderUpdate`:
`for (attempt = 1; attempt <= retries + 1; attempt++)`.  `resp n` is the
outcome of the n-th HTTP attempt; `remaining` counts the attempts still
allowed (`retries + 1 - attempt + 1`), so `remaining = 1` is the last
attempt.  A 2xx returns success; a plain 4xx breaks immediately; otherwise
the loop sleeps `attempt * 1000` ms and retries. -/
def webhookGo (resp : Nat → AttemptResult) : Nat → Nat → WebhookOutcome
  | _, 0 => { success := false, attemptsMade := 0, delays := [] }
  | attempt, remaining + 1 =>
    if isSuccessStatus (resp attempt) then
      { success := true, attemptsMade := 1, delays := [] }
    else if isNonRetryable (resp attempt) then
      { success := false, attemptsMade := 1, delays := [] }
    else if remaining = 0 then
      { success := false, attemptsMade := 1, delays := [] }
    else
      let rest := webhookGo resp (attempt + 1) remaining
      { success := rest.success, attemptsMade := rest.attemptsMade + 1,
        delays := attempt * 1000 :: rest.delays }

/-- `customerWebhookService.notifyCustomerOrderUpdate` retry behaviour with
`retries` retries (default 3): at most `retries + 1` attempts starting at
attempt 1. -/
def notifyCustomerOrderUpdate (resp : Nat → AttemptResult) (retries : Nat) : WebhookOutcome :=
  webhookGo resp 1 (retries + 1)

/-- A vendor presence record: online flag and last known location. -/
structure VendorPresence where
  vendorId : Nat
  online : Bool
  loc : Point
deriving DecidableEq, Repr

/-- A geographic distance function (meters).  The spherical `$centerSphere`
geometry of MongoDB is abstracted as a parameter. -/
def GeoDist : Type := Point → Point → Nat

/-- `findNearbyOnlineVendors(location, maxDistanceMeters = 10000)`: the
`VendorPresence.find({online: true, loc: {$geoWithin: ...}}).limit(10)`
query.  `$geoWithin` requests no ordering, so the documents come back in
the index's natural order: the model keeps the collection order. -/
def findNearbyOnlineVendors (gd : GeoDist) (presences : List VendorPresence)
    (pickup : Point) (maxDistanceMeters : Nat) : List Nat :=
  (((presences.filter
      (fun p => p.online && decide (gd pickup p.loc ≤ maxDistanceMeters))).take 10).map
    (fun p => p.vendorId))

/-- Modelled from the spec: select the nearest online vendor within the
radius ("select the first by the Presence Index's native distance ordering
(nearest first)").  Used only to compare the spec's selection rule with the
code's. -/
def nearestOnlineVendorSpec (gd : GeoDist) (presences : List VendorPresence)
    (pickup : Point) (maxDistanceMeters : Nat) : Option Nat :=
  ((presences.filter
      (fun p => p.online && decide (gd pickup p.loc ≤ maxDistanceMeters))).argmin
    (fun p => gd pickup p.loc)).map (fun p => p.vendorId)

/-- `assignVendorToOrder(order)`: query nearby online vendors, take the
first returned id, look the vendor up, and save
`{vendorId, status: 'assigned', assignedAt}` on the order; with no
candidate (or an unknown vendor id) the order is left untouched and the
result is `null`. `vendors` is the set of existing vendor documents. -/
def assignVendorToOrder (gd : GeoDist) (presences : List VendorPresence)
    (vendors : List Nat) (o : OrderRec) (now : Nat) : OrderRec × Option Nat :=
  match findNearbyOnlineVendors gd presences o.pickup 10000 with
  | [] => (o, none)
  | v :: _ =>
    if vendors.contains v then
      ({ o with vendorId := some v, status := Status.assigned, assignedAt := some now }, some v)
    else (o, none)

/-- External vendor status vocabulary accepted by the `/vendor-update`
route (Joi: `accepted, rejected, enroute, completed, cancelled`). -/
inductive ExtStatus where
  | accepted
  | rejected
  | enroute
  | completed
  | cancelled
deriving DecidableEq, Repr

/-- The status mapping table of the `/vendor-update` route: external
vocabulary to internal order statuses (`rejected` maps back to `pending`). -/
def mapVendorStatus : ExtStatus → Status
  | ExtStatus.accepted => Status.assigned
  | ExtStatus.enroute => Status.in_progress
  | ExtStatus.completed => Status.completed
  | ExtStatus.cancelled => Status.cancelled
  | ExtStatus.rejected => Status.pending

/-- The order block of `router.post('/vendor-update')`: if the order exists,
`findOneAndUpdate({_id}, {$set: {vendorId, ...(status && {status})}})` —
the order's `vendorId` is overwritten with the upserted vendor and the
mapped status is written with no guard on the current status. -/
def vendorUpdateOrder (store : Store) (orderId newVendorId : Nat)
    (extStatus : Option ExtStatus) : Store × Bool :=
  match findById store orderId with
  | none => (store, false)
  | some _ =>
    match findOneAndUpdate store (fun o => decide (o.id = orderId))
      (fun o => { o with
          vendorId := some newVendorId,
          status := match extStatus with
                    | some e => mapVendorStatus e
                    | none => o.status }) with
    | (s2, some _) => (s2, true)
    | (s2, none) => (s2, false)

/-- A vendor-facing transition operation with its caller and timestamp. -/
inductive Op where
  | accept (vendorId now : Nat)
  | reject (vendorId now : Nat) (reason : Option String)
  | start (vendorId now : Nat)
  | complete (vendorId now : Nat)
  | cancel (vendorId now : Nat) (reason : Option String)
deriving DecidableEq, Repr

/-- Effect of one handler call on a single order document, obtained by
running the handler on the singleton collection holding that document. -/
def stepOrder (op : Op) (o : OrderRec) : OrderRec :=
  let pick : Store × Resp → OrderRec := fun r =>
    match r.1 with
    | [u] => u
    | _ => o
  match op with
  | Op.accept v now => pick (acceptOrder [o] v o.id now)
  | Op.reject v now reason => pick (rejectOrder [o] v o.id now reason)
  | Op.start v now => pick (startOrder [o] v o.id now)
  | Op.complete v now => pick (completeOrder [o] v o.id now)
  | Op.cancel v now reason => pick (cancelOrder [o] v o.id now reason)

/-- A freshly created order (`orderService.createOrder`): `createdAt` set,
no lifecycle timestamps, and either `pending` with no vendor, or directly
`assigned` to a vendor (explicit `vendorId` in the payload, or the
dispatcher's immediate auto-assignment). -/
def Created (o : OrderRec) : Prop :=
  o.createdAt.isSome ∧ o.acceptedAt = none ∧ o.completedAt = none ∧ o.cancelledAt = none ∧
    ((o.status = Status.pending ∧ o.vendorId = none ∧ o.assignedAt = none) ∨
     (o.status = Status.assigned ∧ o.vendorId.isSome ∧ o.assignedAt.isSome))

/-- Order states reachable from creation through the vendor transition
endpoints. -/
inductive Reach : OrderRec → Prop
  | init (o : OrderRec) : Created o → Reach o
  | step (o : OrderRec) (op : Op) : Reach o → Reach (stepOrder op o)

theorem findById_singleton (o : OrderRec) : findById [o] o.id = some o := by
  simp [findById]

theorem findOneAndUpdate_singleton (o : OrderRec) (q : OrderRec → Bool) (f : OrderRec → OrderRec) :
    findOneAndUpdate [o] q f = if q o then ([f o], some (f o)) else ([o], none) := by
  by_cases h : q o <;> simp [findOneAndUpdate, h]

/-- Membership after a `findOneAndUpdate`: every document of the updated
collection is an old document, or the image of an old document that
satisfied the query at the moment the update executed. -/
theorem mem_findOneAndUpdate (store : Store) (q : OrderRec → Bool) (f : OrderRec → OrderRec)
    (u : OrderRec) (hu : u ∈ (findOneAndUpdate store q f).1) :
    u ∈ store ∨ ∃ o, o ∈ store ∧ q o = true ∧ u = f o := by
  induction store with
  | nil => simp [findOneAndUpdate] at hu
  | cons o rest ih =>
    by_cases h : q o
    · simp [findOneAndUpdate, h] at hu
      rcases hu with hu | hu
      · exact Or.inr ⟨o, by simp, h, hu⟩
      · exact Or.inl (by simp [hu])
    · simp [findOneAndUpdate, h] at hu
      rcases hu with hu | hu
      · exact Or.inl (by simp [hu])
      · rcases ih hu with h2 | ⟨o2, ho2, hq, he⟩
        · exact Or.inl (by simp [h2])
        · exact Or.inr ⟨o2, by simp [ho2], hq, he⟩

theorem stepOrder_accept (o : OrderRec) (v now : Nat) :
    stepOrder (Op.accept v now) o =
      if o.status = Status.assigned ∧ o.vendorId = some v then
        { o with status := Status.accepted, acceptedAt := some now }
      else if o.status = Status.pending then
        { o with vendorId := some v, status := Status.accepted,
                 acceptedAt := some now, assignedAt := some now }
      else o := by
  by_cases h1 : o.status = Status.accepted
  · by_cases h2 : o.vendorId = some v
    · by_cases h3 : o.acceptedAt.isSome <;>
        simp [stepOrder, acceptOrder, findById_singleton, h1, h2, h3]
    · by_cases h3 : o.vendorId.isSome <;>
        simp [stepOrder, acceptOrder, findById_singleton, h1, h2, h3]
  · by_cases h2 : o.status = Status.assigned
    · by_cases h3 : o.vendorId = some v
      · simp [stepOrder, acceptOrder, findById_singleton, h1, h2, h3,
          acceptAssignedUpdate, findOneAndUpdate_singleton]
      · simp [stepOrder, acceptOrder, findById_singleton, h1, h2, h3]
    · by_cases h3 : o.status = Status.pending
      · simp [stepOrder, acceptOrder, findById_singleton, h1, h2, h3,
          acceptPendingUpdate, transitionOrderAtomic, findOneAndUpdate_singleton]
      · simp [stepOrder, acceptOrder, findById_singleton, h1, h2, h3]

theorem stepOrder_reject (o : OrderRec) (v now : Nat) (reason : Option String) :
    stepOrder (Op.reject v now reason) o =
      if o.status = Status.pending then
        { o with status := Status.rejected, cancelledAt := some now,
                 rejectionReason := some (reason.getD rejectedByVendorDefault),
                 cancelledBy := some byVendor }
      else if o.status = Status.assigned ∧ o.vendorId = some v then
        { o with status := Status.cancelled, cancelledAt := some now,
                 rejectionReason := some (reason.getD rejectedByVendorDefault),
                 cancelledBy := some byVendor }
      else o := by
  by_cases h1 : o.status = Status.pending
  · simp [stepOrder, rejectOrder, findById_singleton, h1, rejectUpdate,
      findOneAndUpdate_singleton]
  · by_cases h2 : o.status = Status.assigned ∧ o.vendorId = some v
    · simp [stepOrder, rejectOrder, findById_singleton, h1, h2.1, h2.2, rejectUpdate,
        findOneAndUpdate_singleton, h2]
    · have h3 : ¬(o.status = Status.pending ∨
          (o.status = Status.assigned ∧ o.vendorId = some v)) := by
        intro h
        rcases h with h | h
        · exact h1 h
        · exact h2 h
      simp [stepOrder, rejectOrder, findById_singleton, h3, h1, h2]

theorem stepOrder_start (o : OrderRec) (v now : Nat) :
    stepOrder (Op.start v now) o =
      if o.status = Status.accepted ∧ o.vendorId = some v then
        { o with status := Status.in_progress, assignedAt := some now,
                 acceptedAt := some now }
      else o := by
  by_cases h : o.status = Status.accepted ∧ o.vendorId = some v <;>
    simp [stepOrder, startOrder, startUpdate, transitionOrderAtomic,
      findOneAndUpdate_singleton, h]

theorem stepOrder_complete (o : OrderRec) (v now : Nat) :
    stepOrder (Op.complete v now) o =
      if o.status = Status.in_progress ∧ o.vendorId = some v then
        { o with status := Status.completed, completedAt := some now }
      else o := by
  by_cases h : o.status = Status.in_progress ∧ o.vendorId = some v <;>
    simp [stepOrder, completeOrder, completeUpdate, transitionOrderAtomic,
      findOneAndUpdate_singleton, h]

theorem stepOrder_cancel (o : OrderRec) (v now : Nat) (reason : Option String) :
    stepOrder (Op.cancel v now reason) o =
      if o.status = Status.accepted ∨ o.status = Status.in_progress then
        { o with status := Status.cancelled, cancelledAt := some now,
                 cancellationReason := some (reason.getD cancelledByVendorDefault),
                 cancelledBy := some byVendor }
      else o := by
  by_cases h : o.status = Status.accepted ∨ o.status = Status.in_progress <;>
    simp [stepOrder, cancelOrder, findById_singleton, cancelUpdate,
      findOneAndUpdate_singleton, h]

/-- Record invariant maintained by the vendor order endpoints: what each
status implies about `vendorId` and the lifecycle timestamps.  The payment
and arrival sub-flow statuses are not produced by any endpoint in the
sources. -/
def OrderInv (o : OrderRec) : Prop :=
  (o.status = Status.pending → o.vendorId = none ∧ o.assignedAt = none ∧
    o.acceptedAt = none ∧ o.completedAt = none ∧ o.cancelledAt = none) ∧
  (o.status = Status.assigned → o.vendorId.isSome ∧ o.assignedAt.isSome ∧
    o.acceptedAt = none ∧ o.completedAt = none ∧ o.cancelledAt = none) ∧
  (o.status = Status.accepted → o.vendorId.isSome ∧ o.assignedAt.isSome ∧
    o.acceptedAt.isSome ∧ o.completedAt = none ∧ o.cancelledAt = none) ∧
  (o.status = Status.in_progress → o.vendorId.isSome ∧ o.assignedAt.isSome ∧
    o.acceptedAt.isSome ∧ o.completedAt = none ∧ o.cancelledAt = none) ∧
  (o.status = Status.completed → o.vendorId.isSome ∧ o.completedAt.isSome) ∧
  (o.status = Status.cancelled → o.vendorId.isSome ∧ o.cancelledAt.isSome) ∧
  (o.status = Status.rejected → o.vendorId = none ∧ o.cancelledAt.isSome) ∧
  o.status ≠ Status.payment_requested ∧
  o.status ≠ Status.payment_confirmed ∧
  o.status ≠ Status.arrival_confirmed

theorem created_orderInv (o : OrderRec) (h : Created o) : OrderInv o := by
  obtain ⟨_, hac, hco, hca, hcase⟩ := h
  rcases hcase with ⟨hs, hv, has⟩ | ⟨hs, hv, has⟩ <;>
    refine ⟨?_, ?_, ?_, ?_, ?_, ?_, ?_, ?_, ?_, ?_⟩ <;>
    simp_all

theorem orderInv_step (o : OrderRec) (op : Op) (h : OrderInv o) : OrderInv (stepOrder op o) := by
  obtain ⟨hp, ha, hac, hip, hco, hcl, hr, hq1, hq2, hq3⟩ := h
  cases op with
  | accept v now =>
    rw [stepOrder_accept]
    split_ifs with h1 h2
    · obtain ⟨hv, has, _, hc4, hc5⟩ := ha h1.1
      exact ⟨by simp, by simp, by simpa using ⟨by simp [h1.2], has, hc4, hc5⟩,
        by simp, by simp, by simp, by simp, by simp, by simp, by simp⟩
    · obtain ⟨_, _, _, hc4, hc5⟩ := hp h2
      exact ⟨by simp, by simp, by simpa using ⟨hc4, hc5⟩,
        by simp, by simp, by simp, by simp, by simp, by simp, by simp⟩
    · exact ⟨hp, ha, hac, hip, hco, hcl, hr, hq1, hq2, hq3⟩
  | reject v now reason =>
    rw [stepOrder_reject]
    split_ifs with h1 h2
    · obtain ⟨hv, _, _, _, _⟩ := hp h1
      exact ⟨by simp, by simp, by simp, by simp, by simp, by simp,
        by simpa using hv, by simp, by simp, by simp⟩
    · obtain ⟨hv, _, _, _, _⟩ := ha h2.1
      exact ⟨by simp, by simp, by simp, by simp, by simp,
        by simpa using hv, by simp, by simp, by simp, by simp⟩
    · exact ⟨hp, ha, hac, hip, hco, hcl, hr, hq1, hq2, hq3⟩
  | start v now =>
    rw [stepOrder_start]
    split_ifs with h1
    · obtain ⟨hv, has, _, hc4, hc5⟩ := hac h1.1
      exact ⟨by simp, by simp, by simp, by simpa using ⟨hv, hc4, hc5⟩,
        by simp, by simp, by simp, by simp, by simp, by simp⟩
    · exact ⟨hp, ha, hac, hip, hco, hcl, hr, hq1, hq2, hq3⟩
  | complete v now =>
    rw [stepOrder_complete]
    split_ifs with h1
    · obtain ⟨hv, _, _, _, _⟩ := hip h1.1
      exact ⟨by simp, by simp, by simp, by simp, by simpa using hv,
        by simp, by simp, by simp, by simp, by simp⟩
    · exact ⟨hp, ha, hac, hip, hco, hcl, hr, hq1, hq2, hq3⟩
  | cancel v now reason =>
    rw [stepOrder_cancel]
    split_ifs with h1
    · have hv : o.vendorId.isSome := by
        rcases h1 with h1 | h1
        · exact (hac h1).1
        · exact (hip h1).1
      exact ⟨by simp, by simp, by simp, by simp, by simp,
        by simpa using hv, by simp, by simp, by simp, by simp⟩
    · exact ⟨hp, ha, hac, hip, hco, hcl, hr, hq1, hq2, hq3⟩

theorem reach_orderInv (o : OrderRec) (h : Reach o) : OrderInv o := by
  induction h with
  | init o hc => exact created_orderInv o hc
  | step o op _ ih => exact orderInv_step o op ih

/-- Returned-document version of `mem_findOneAndUpdate`: a returned updated
document is the image of a stored document that satisfied the query. -/
theorem findOneAndUpdate_some (store : Store) (q : OrderRec → Bool) (f : OrderRec → OrderRec)
    (u : OrderRec) (hu : (findOneAndUpdate store q f).2 = some u) :
    ∃ o, o ∈ store ∧ q o = true ∧ u = f o := by
  induction store with
  | nil => simp [findOneAndUpdate] at hu
  | cons o rest ih =>
    by_cases h : q o
    · simp [findOneAndUpdate, h] at hu
      exact ⟨o, by simp, h, hu.symm⟩
    · simp [findOneAndUpdate, h] at hu
      rcases ih hu with ⟨o2, ho2, hq, he⟩
      exact ⟨o2, by simp [ho2], hq, he⟩

/-- Order fixture with the given id, status and vendor; all other fields at
their creation defaults. -/
def mkOrder (id : Nat) (st : Status) (v : Option Nat) : OrderRec :=
  { id := id, customerId := none, vendorId := v, status := st, pickup := (0, 0),
    createdAt := some 1, assignedAt := none, acceptedAt := none,
    completedAt := none, cancelledAt := none, cancellationReason := none,
    cancelledBy := none, rejectionReason := none }

/-- An order assigned to vendor 1 at time 5, as created by the dispatcher. -/
def assignedOrder15 : OrderRec :=
  { mkOrder 1 Status.assigned (some 1) with assignedAt := some 5 }

/-- The order of `assignedOrder15` after vendor 1 accepted it at time 7. -/
def acceptedOrder157 : OrderRec :=
  { mkOrder 1 Status.accepted (some 1) with assignedAt := some 5, acceptedAt := some 7 }

theorem reach_acceptedOrder157 : Reach acceptedOrder157 := by
  have h0 : Reach assignedOrder15 :=
    Reach.init assignedOrder15 (by refine ⟨by decide, by decide, by decide, by decide, Or.inr ?_⟩; decide)
  have h1 : stepOrder (Op.accept 1 7) assignedOrder15 = acceptedOrder157 := by decide
  exact h1 ▸ Reach.step assignedOrder15 (Op.accept 1 7) h0

/-- C2: behaviour of `acceptOrder` on an order already in `accepted` status:
idempotent success for the recorded vendor when `acceptedAt` is set, a 409
conflict for a different vendor, and a 400 invalid-state error for the
recorded vendor when `acceptedAt` is missing. -/
theorem accept_idempotency_cases (store : Store) (v w orderId now : Nat) (o : OrderRec)
    (hfind : findById store orderId = some o) (hst : o.status = Status.accepted) :
    (o.vendorId = some v → o.acceptedAt.isSome →
      acceptOrder store v orderId now = (store, Resp.ok o)) ∧
    (o.vendorId = some w → w ≠ v →
      acceptOrder store v orderId now = (store, Resp.err 409 msgAlreadyAcceptedByAnother)) ∧
    (o.vendorId = some v → o.acceptedAt = none →
      acceptOrder store v orderId now = (store, Resp.err 400 (cannotAcceptMsg Status.accepted))) := by
  refine ⟨?_, ?_, ?_⟩ <;> intro h1 h2 <;>
    simp [acceptOrder, hfind, hst, h1, h2]

theorem accept_idempotency_cases_witness :
    acceptOrder [acceptedOrder157] 1 1 9 = ([acceptedOrder157], Resp.ok acceptedOrder157) ∧
    acceptOrder [acceptedOrder157] 2 1 9 =
      ([acceptedOrder157], Resp.err 409 msgAlreadyAcceptedByAnother) ∧
    acceptOrder [{ acceptedOrder157 with acceptedAt := none }] 1 1 9 =
      ([{ acceptedOrder157 with acceptedAt := none }],
        Resp.err 400 (cannotAcceptMsg Status.accepted)) := by
  refine ⟨?_, ?_, ?_⟩
  · exact (accept_idempotency_cases [acceptedOrder157] 1 1 1 9 acceptedOrder157
      (by decide) (by decide)).1 (by decide) (by decide)
  · exact (accept_idempotency_cases [acceptedOrder157] 2 1 1 9 acceptedOrder157
      (by decide) (by decide)).2.1 (by decide) (by decide)
  · exact (accept_idempotency_cases [{ acceptedOrder157 with acceptedAt := none }] 1 1 1 9
      { acceptedOrder157 with acceptedAt := none }
      (by decide) (by decide)).2.2 (by decide) (by decide)

/-- C8: a successful reject of a pending unassigned order yields status
`rejected`; a successful reject of an assigned order and a successful
cancel both yield status `cancelled`; the two terminal statuses are never
swapped. -/
theorem reject_cancel_terminal_statuses (store : Store) (v orderId now : Nat)
    (reason : Option String) (o u : OrderRec) :
    (findById store orderId = some o → o.status = Status.pending → o.vendorId = none →
      (rejectOrder store v orderId now reason).2 = Resp.ok u → u.status = Status.rejected) ∧
    (findById store orderId = some o → o.status = Status.assigned →
      (rejectOrder store v orderId now reason).2 = Resp.ok u → u.status = Status.cancelled) ∧
    ((cancelOrder store v orderId now reason).2 = Resp.ok u → u.status = Status.cancelled) := by
  refine ⟨?_, ?_, ?_⟩
  · intro hfind hst _ hok
    rw [rejectOrder, hfind] at hok
    simp [hst] at hok
    rcases hru : rejectUpdate store orderId Status.pending now reason with ⟨s2, r⟩
    rw [hru] at hok
    cases r with
    | none => simp at hok
    | some u0 =>
      simp at hok
      rcases findOneAndUpdate_some store _ _ u0 (by rw [rejectUpdate] at hru; rw [hru])
        with ⟨o2, _, _, he⟩
      rw [← hok, he]
      simp
  · intro hfind hst hok
    rw [rejectOrder, hfind] at hok
    simp [hst] at hok
    by_cases hv : o.vendorId = some v
    · simp [hv] at hok
      rcases hru : rejectUpdate store orderId Status.assigned now reason with ⟨s2, r⟩
      rw [hru] at hok
      cases r with
      | none => simp at hok
      | some u0 =>
        simp at hok
        rcases findOneAndUpdate_some store _ _ u0 (by rw [rejectUpdate] at hru; rw [hru])
          with ⟨o2, _, _, he⟩
        rw [← hok, he]
        simp
    · simp [hv] at hok
  · intro hok
    rw [cancelOrder] at hok
    rcases hfind : findById store orderId with _ | o2
    · rw [hfind] at hok; simp at hok
    · rw [hfind] at hok
      by_cases hst : o2.status = Status.accepted ∨ o2.status = Status.in_progress
      · simp [hst] at hok
        rcases hcu : cancelUpdate store orderId now reason with ⟨s2, r⟩
        rw [hcu] at hok
        cases r with
        | none => simp at hok
        | some u0 =>
          simp at hok
          rcases findOneAndUpdate_some store _ _ u0 (by rw [cancelUpdate] at hcu; rw [hcu])
            with ⟨o3, _, _, he⟩
          rw [← hok, he]
      · simp [hst] at hok

theorem reject_cancel_terminal_statuses_witness :
    (rejectOrder [mkOrder 1 Status.pending none] 4 1 9 none).2 =
      Resp.ok { mkOrder 1 Status.pending none with
        status := Status.rejected, cancelledAt := some 9,
        rejectionReason := some rejectedByVendorDefault, cancelledBy := some byVendor } ∧
    ({ mkOrder 1 Status.pending none with
        status := Status.rejected, cancelledAt := some 9,
        rejectionReason := some rejectedByVendorDefault,
        cancelledBy := some byVendor } : OrderRec).status = Status.rejected ∧
    (cancelOrder [acceptedOrder157] 1 1 9 none).2 =
      Resp.ok { acceptedOrder157 with
        status := Status.cancelled, cancelledAt := some 9,
        cancellationReason := some cancelledByVendorDefault, cancelledBy := some byVendor } ∧
    ({ acceptedOrder157 with
        status := Status.cancelled, cancelledAt := some 9,
        cancellationReason := some cancelledByVendorDefault,
        cancelledBy := some byVendor } : OrderRec).status = Status.cancelled := by
  have h1 := (reject_cancel_terminal_statuses [mkOrder 1 Status.pending none] 4 1 9 none
    (mkOrder 1 Status.pending none)
    { mkOrder 1 Status.pending none with
        status := Status.rejected, cancelledAt := some 9,
        rejectionReason := some rejectedByVendorDefault,
        cancelledBy := some byVendor }).1 (by decide) (by decide) (by decide)
  have h3 := (reject_cancel_terminal_statuses [acceptedOrder157] 1 1 9 none
    acceptedOrder157
    { acceptedOrder157 with
        status := Status.cancelled, cancelledAt := some 9,
        cancellationReason := some cancelledByVendorDefault,
        cancelledBy := some byVendor }).2.2
  exact ⟨by decide, h1 (by decide), by decide, h3 (by decide)⟩

/-- Edges of the order state machine actually enforced by the vendor
endpoints: the documented edges plus the `pending → accepted` shortcut of
`acceptOrder`'s atomic claim on broadcast orders. -/
def allowedEdge : Status → Status → Bool
  | Status.pending, Status.rejected => true
  | Status.pending, Status.accepted => true
  | Status.assigned, Status.accepted => true
  | Status.assigned, Status.cancelled => true
  | Status.accepted, Status.in_progress => true
  | Status.accepted, Status.cancelled => true
  | Status.in_progress, Status.completed => true
  | Status.in_progress, Status.cancelled => true
  | _, _ => false

/-- A pending broadcast order with no vendor assigned. -/
def pendingOrder1 : OrderRec := mkOrder 1 Status.pending none

/-- C9 counterexample: `acceptOrder` moves a pending order directly to
`accepted` (the atomic claim path), so the claim that no operation moves an
order from `pending` directly to `accepted` is false. -/
theorem pending_to_accepted_shortcut :
    Reach pendingOrder1 ∧ pendingOrder1.status = Status.pending ∧
    pendingOrder1.vendorId = none ∧
    (stepOrder (Op.accept 3 5) pendingOrder1).status = Status.accepted := by
  refine ⟨Reach.init pendingOrder1 ?_, by decide, by decide, by decide⟩
  exact ⟨by decide, by decide, by decide, by decide, Or.inl (by decide)⟩

/-- C9 amended: every status change performed by a vendor transition
endpoint follows an edge of the state machine extended with the
`pending → accepted` shortcut; no other predecessor is ever skipped. -/
theorem status_changes_follow_edges (o : OrderRec) (op : Op) :
    (stepOrder op o).status = o.status ∨
      allowedEdge o.status (stepOrder op o).status = true := by
  cases op with
  | accept v now =>
    rw [stepOrder_accept]
    split_ifs with h1 h2
    · right; rw [h1.1]; rfl
    · right; rw [h2]; rfl
    · left; rfl
  | reject v now reason =>
    rw [stepOrder_reject]
    split_ifs with h1 h2
    · right; rw [h1]; rfl
    · right; rw [h2.1]; rfl
    · left; rfl
  | start v now =>
    rw [stepOrder_start]
    split_ifs with h1
    · right; rw [h1.1]; rfl
    · left; rfl
  | complete v now =>
    rw [stepOrder_complete]
    split_ifs with h1
    · right; rw [h1.1]; rfl
    · left; rfl
  | cancel v now reason =>
    rw [stepOrder_cancel]
    split_ifs with h1
    · rcases h1 with h1 | h1
      · right; rw [h1]; rfl
      · right; rw [h1]; rfl
    · left; rfl

/-- C5 counterexample: starting a reachable accepted order overwrites the
previously recorded `assignedAt` and `acceptedAt` with the start time. -/
theorem start_overwrites_timestamps :
    Reach acceptedOrder157 ∧
    acceptedOrder157.assignedAt = some 5 ∧ acceptedOrder157.acceptedAt = some 7 ∧
    (stepOrder (Op.start 1 42) acceptedOrder157).assignedAt = some 42 ∧
    (stepOrder (Op.start 1 42) acceptedOrder157).acceptedAt = some 42 := by
  exact ⟨reach_acceptedOrder157, by decide, by decide, by decide, by decide⟩

/-- C5 amended: on every reachable order, `createdAt`, `completedAt` and
`cancelledAt`, once set, are never changed by any vendor transition, and
`assignedAt` and `acceptedAt`, once set, are only changed by a successful
`start`, which overwrites both with the start time. -/
theorem timestamps_set_once_except_start (o : OrderRec) (hre : Reach o) (op : Op) :
    (stepOrder op o).createdAt = o.createdAt ∧
    (o.completedAt.isSome → (stepOrder op o).completedAt = o.completedAt) ∧
    (o.cancelledAt.isSome → (stepOrder op o).cancelledAt = o.cancelledAt) ∧
    (o.assignedAt.isSome → (stepOrder op o).assignedAt = o.assignedAt ∨
      ∃ v n, op = Op.start v n ∧ (stepOrder op o).assignedAt = some n) ∧
    (o.acceptedAt.isSome → (stepOrder op o).acceptedAt = o.acceptedAt ∨
      ∃ v n, op = Op.start v n ∧ (stepOrder op o).acceptedAt = some n) := by
  have hInv := reach_orderInv o hre
  obtain ⟨hp, ha, hac, hip, hco, hcl, hr, _, _, _⟩ := hInv
  cases op with
  | accept v now =>
    rw [stepOrder_accept]
    split_ifs with h1 h2
    · obtain ⟨_, _, hacc, _, _⟩ := ha h1.1
      exact ⟨rfl, fun h => rfl, fun h => rfl, fun h => Or.inl rfl,
        fun h => absurd h (by simp [hacc])⟩
    · obtain ⟨_, has, hacc, _, _⟩ := hp h2
      exact ⟨rfl, fun h => rfl, fun h => rfl,
        fun h => absurd h (by simp [has]),
        fun h => absurd h (by simp [hacc])⟩
    · exact ⟨rfl, fun h => rfl, fun h => rfl, fun h => Or.inl rfl, fun h => Or.inl rfl⟩
  | reject v now reason =>
    rw [stepOrder_reject]
    split_ifs with h1 h2
    · obtain ⟨_, _, _, _, hcc⟩ := hp h1
      exact ⟨rfl, fun h => rfl, fun h => absurd h (by simp [hcc]),
        fun h => Or.inl rfl, fun h => Or.inl rfl⟩
    · obtain ⟨_, _, _, _, hcc⟩ := ha h2.1
      exact ⟨rfl, fun h => rfl, fun h => absurd h (by simp [hcc]),
        fun h => Or.inl rfl, fun h => Or.inl rfl⟩
    · exact ⟨rfl, fun h => rfl, fun h => rfl, fun h => Or.inl rfl, fun h => Or.inl rfl⟩
  | start v now =>
    rw [stepOrder_start]
    split_ifs with h1
    · exact ⟨rfl, fun h => rfl, fun h => rfl,
        fun h => Or.inr ⟨v, now, rfl, rfl⟩, fun h => Or.inr ⟨v, now, rfl, rfl⟩⟩
    · exact ⟨rfl, fun h => rfl, fun h => rfl, fun h => Or.inl rfl, fun h => Or.inl rfl⟩
  | complete v now =>
    rw [stepOrder_complete]
    split_ifs with h1
    · obtain ⟨_, _, _, hcp, _⟩ := hip h1.1
      exact ⟨rfl, fun h => absurd h (by simp [hcp]), fun h => rfl,
        fun h => Or.inl rfl, fun h => Or.inl rfl⟩
    · exact ⟨rfl, fun h => rfl, fun h => rfl, fun h => Or.inl rfl, fun h => Or.inl rfl⟩
  | cancel v now reason =>
    rw [stepOrder_cancel]
    split_ifs with h1
    · have hcc : o.cancelledAt = none := by
        rcases h1 with h1 | h1
        · exact (hac h1).2.2.2.2
        · exact (hip h1).2.2.2.2
      exact ⟨rfl, fun h => rfl, fun h => absurd h (by simp [hcc]),
        fun h => Or.inl rfl, fun h => Or.inl rfl⟩
    · exact ⟨rfl, fun h => rfl, fun h => rfl, fun h => Or.inl rfl, fun h => Or.inl rfl⟩

theorem timestamps_set_once_except_start_witness :
    (stepOrder (Op.complete 1 9) acceptedOrder157).createdAt = acceptedOrder157.createdAt ∧
    ((stepOrder (Op.complete 1 9) acceptedOrder157).assignedAt = acceptedOrder157.assignedAt ∨
      ∃ v n, Op.complete 1 9 = Op.start v n ∧
        (stepOrder (Op.complete 1 9) acceptedOrder157).assignedAt = some n) ∧
    ((stepOrder (Op.complete 1 9) acceptedOrder157).acceptedAt = acceptedOrder157.acceptedAt ∨
      ∃ v n, Op.complete 1 9 = Op.start v n ∧
        (stepOrder (Op.complete 1 9) acceptedOrder157).acceptedAt = some n) := by
  have h := timestamps_set_once_except_start acceptedOrder157 reach_acceptedOrder157
    (Op.complete 1 9)
  exact ⟨h.1, h.2.2.2.1 (by decide), h.2.2.2.2 (by decide)⟩

/-- C6 counterexample: the `/vendor-update` route, applied to a reachable
order accepted by vendor 1, overwrites `vendorId` with the upserted vendor
2 and maps the external status `rejected` back to `pending`, producing a
pending order with a non-null `vendorId` whose vendor changed before any
terminal state. -/
theorem vendor_update_breaks_vendorId_invariant :
    Reach acceptedOrder157 ∧
    acceptedOrder157.vendorId = some 1 ∧
    (vendorUpdateOrder [acceptedOrder157] 1 2 (some ExtStatus.rejected)).1 =
      [{ acceptedOrder157 with vendorId := some 2, status := Status.pending }] ∧
    ({ acceptedOrder157 with
        vendorId := some 2,
        status := Status.pending } : OrderRec).vendorId.isSome = true ∧
    ({ acceptedOrder157 with
        vendorId := some 2,
        status := Status.pending } : OrderRec).status = Status.pending := by
  exact ⟨reach_acceptedOrder157, by decide, by decide, by decide, by decide⟩

/-- C6 amended: on every order state reachable through creation, the
dispatcher and the vendor order endpoints, `vendorId` is non-null exactly
when the status is beyond `pending` and not `rejected`, and a set
`vendorId` is never changed by any vendor transition; the `/vendor-update`
route is excluded, as it overwrites both fields unconditionally. -/
theorem vendorId_iff_status_and_immutable (o : OrderRec) (hre : Reach o) :
    (o.vendorId.isSome ↔
      (o.status = Status.assigned ∨ o.status = Status.accepted ∨
       o.status = Status.in_progress ∨ o.status = Status.payment_requested ∨
       o.status = Status.payment_confirmed ∨ o.status = Status.arrival_confirmed ∨
       o.status = Status.completed ∨ o.status = Status.cancelled)) ∧
    (∀ op : Op, o.vendorId.isSome → (stepOrder op o).vendorId = o.vendorId) := by
  have hInv := reach_orderInv o hre
  obtain ⟨hp, ha, hac, hip, hco, hcl, hr, hq1, hq2, hq3⟩ := hInv
  constructor
  · constructor
    · intro hv
      cases hs : o.status with
      | pending => exact absurd hv (by simp [(hp hs).1])
      | rejected => exact absurd hv (by simp [(hr hs).1])
      | assigned => exact Or.inl rfl
      | accepted => exact Or.inr (Or.inl rfl)
      | in_progress => exact Or.inr (Or.inr (Or.inl rfl))
      | payment_requested => exact absurd hs hq1
      | payment_confirmed => exact absurd hs hq2
      | arrival_confirmed => exact absurd hs hq3
      | completed => exact Or.inr (Or.inr (Or.inr (Or.inr (Or.inr (Or.inr (Or.inl rfl))))))
      | cancelled => exact Or.inr (Or.inr (Or.inr (Or.inr (Or.inr (Or.inr (Or.inr rfl))))))
    · intro hs
      rcases hs with hs | hs | hs | hs | hs | hs | hs | hs
      · exact (ha hs).1
      · exact (hac hs).1
      · exact (hip hs).1
      · exact absurd hs hq1
      · exact absurd hs hq2
      · exact absurd hs hq3
      · exact (hco hs).1
      · exact (hcl hs).1
  · intro op hv
    cases op with
    | accept v now =>
      rw [stepOrder_accept]
      split_ifs with h1 h2
      · rfl
      · exact absurd hv (by simp [(hp h2).1])
      · rfl
    | reject v now reason =>
      rw [stepOrder_reject]
      split_ifs with h1 h2 <;> rfl
    | start v now =>
      rw [stepOrder_start]
      split_ifs with h1 <;> rfl
    | complete v now =>
      rw [stepOrder_complete]
      split_ifs with h1 <;> rfl
    | cancel v now reason =>
      rw [stepOrder_cancel]
      split_ifs with h1 <;> rfl

theorem vendorId_iff_status_and_immutable_witness :
    (acceptedOrder157.vendorId.isSome ↔
      (acceptedOrder157.status = Status.assigned ∨
       acceptedOrder157.status = Status.accepted ∨
       acceptedOrder157.status = Status.in_progress ∨
       acceptedOrder157.status = Status.payment_requested ∨
       acceptedOrder157.status = Status.payment_confirmed ∨
       acceptedOrder157.status = Status.arrival_confirmed ∨
       acceptedOrder157.status = Status.completed ∨
       acceptedOrder157.status = Status.cancelled)) ∧
    (stepOrder (Op.start 1 9) acceptedOrder157).vendorId = acceptedOrder157.vendorId := by
  have h := vendorId_iff_status_and_immutable acceptedOrder157 reach_acceptedOrder157
  exact ⟨h.1, h.2 (Op.start 1 9) (by decide)⟩

/-- C1 counterexample: `cancelOrder` called by vendor 20 on an order
accepted by vendor 10 mutates the order anyway — the cancel mutation is
applied with no condition on the caller's vendor id (its data-layer update
is keyed on `_id` alone), even though the cancel transition requires the
caller to be the assigned vendor. -/
theorem cancel_mutates_for_wrong_vendor :
    ({ mkOrder 1 Status.accepted (some 10) with
        assignedAt := some 5, acceptedAt := some 7 } : OrderRec).vendorId = some 10 ∧
    (cancelOrder [{ mkOrder 1 Status.accepted (some 10) with
        assignedAt := some 5, acceptedAt := some 7 }] 20 1 99 none).1 =
      [{ mkOrder 1 Status.accepted (some 10) with
          assignedAt := some 5, acceptedAt := some 7,
          status := Status.cancelled, cancelledAt := some 99,
          cancellationReason := some cancelledByVendorDefault,
          cancelledBy := some byVendor }] ∧
    (10 : Nat) ≠ 20 := by
  exact ⟨by decide, by decide, by decide⟩

/-- C1 amended: the data-layer updates of accept (both paths), start,
complete and reject change a record only if, at the moment the update
executes, that record has the expected prior status (and, for the
accept-from-assigned, start and complete updates, the expected vendor);
the cancel update carries no such condition. -/
theorem conditional_update_guards (store : Store) (orderId v now : Nat)
    (expSt : Status) (reason : Option String) :
    (∀ u, u ∈ (startUpdate store orderId v now).1 → u ∈ store ∨
      ∃ o, o ∈ store ∧ o.id = orderId ∧ o.status = Status.accepted ∧ o.vendorId = some v ∧
        u = { o with status := Status.in_progress,
                     assignedAt := some now, acceptedAt := some now }) ∧
    (∀ u, u ∈ (completeUpdate store orderId v now).1 → u ∈ store ∨
      ∃ o, o ∈ store ∧ o.id = orderId ∧ o.status = Status.in_progress ∧ o.vendorId = some v ∧
        u = { o with status := Status.completed, completedAt := some now }) ∧
    (∀ u, u ∈ (acceptAssignedUpdate store orderId v now).1 → u ∈ store ∨
      ∃ o, o ∈ store ∧ o.id = orderId ∧ o.status = Status.assigned ∧ o.vendorId = some v ∧
        u = { o with status := Status.accepted, acceptedAt := some now }) ∧
    (∀ u, u ∈ (acceptPendingUpdate store orderId v now).1 → u ∈ store ∨
      ∃ o, o ∈ store ∧ o.id = orderId ∧ o.status = Status.pending ∧
        u = { o with vendorId := some v, status := Status.accepted,
                     acceptedAt := some now, assignedAt := some now }) ∧
    (∀ u, u ∈ (rejectUpdate store orderId expSt now reason).1 → u ∈ store ∨
      ∃ o, o ∈ store ∧ o.id = orderId ∧ o.status = expSt ∧
        u = { o with
          status := if expSt = Status.pending then Status.rejected else Status.cancelled,
          cancelledAt := some now,
          rejectionReason := some (reason.getD rejectedByVendorDefault),
          cancelledBy := some byVendor }) := by
  refine ⟨?_, ?_, ?_, ?_, ?_⟩ <;> intro u hu
  · rcases mem_findOneAndUpdate _ _ _ u hu with h | ⟨o, ho, hq, he⟩
    · exact Or.inl h
    · simp only [Bool.and_eq_true, decide_eq_true_eq] at hq
      exact Or.inr ⟨o, ho, hq.1, hq.2.1, hq.2.2, he⟩
  · rcases mem_findOneAndUpdate _ _ _ u hu with h | ⟨o, ho, hq, he⟩
    · exact Or.inl h
    · simp only [Bool.and_eq_true, decide_eq_true_eq] at hq
      exact Or.inr ⟨o, ho, hq.1, hq.2.1, hq.2.2, he⟩
  · rcases mem_findOneAndUpdate _ _ _ u hu with h | ⟨o, ho, hq, he⟩
    · exact Or.inl h
    · simp only [decide_eq_true_eq] at hq
      exact Or.inr ⟨o, ho, hq.1, hq.2.1, hq.2.2, he⟩
  · rcases mem_findOneAndUpdate _ _ _ u hu with h | ⟨o, ho, hq, he⟩
    · exact Or.inl h
    · simp only [Bool.and_eq_true, decide_eq_true_eq] at hq
      exact Or.inr ⟨o, ho, hq.1, hq.2, he⟩
  · rcases mem_findOneAndUpdate _ _ _ u hu with h | ⟨o, ho, hq, he⟩
    · exact Or.inl h
    · simp only [decide_eq_true_eq] at hq
      exact Or.inr ⟨o, ho, hq.1, hq.2, he⟩

theorem conditional_update_guards_witness :
    acceptedOrder157 ∈ ([acceptedOrder157] : Store) ∨
      ∃ o, o ∈ ([acceptedOrder157] : Store) ∧ o.id = 1 ∧ o.status = Status.accepted ∧
        o.vendorId = some 2 ∧
        acceptedOrder157 = { o with status := Status.in_progress,
                                    assignedAt := some 9, acceptedAt := some 9 } := by
  exact (conditional_update_guards [acceptedOrder157] 1 2 9 Status.pending none).1
    acceptedOrder157 (by decide)

/-- An order assigned to vendor 2 (not yet accepted), for the invalid-state
start scenario. -/
def assignedOrder225 : OrderRec :=
  { mkOrder 2 Status.assigned (some 2) with assignedAt := some 5 }

/-- C7 counterexample: `startOrder` returns the identical `400` response for
a forbidden call (vendor 2 starting an order accepted by vendor 1), an
invalid-state call (vendor 2 starting its own order that is still only
assigned), and a call on a non-existent order — the three failure classes
are not distinguishable, and not-found is not even a 404. -/
theorem start_failures_indistinguishable :
    acceptedOrder157.vendorId = some 1 ∧
    assignedOrder225.vendorId = some 2 ∧
    (startOrder [acceptedOrder157] 2 1 9).2 = Resp.err 400 msgInvalidTransition ∧
    (startOrder [assignedOrder225] 2 2 9).2 = Resp.err 400 msgInvalidTransition ∧
    (startOrder [] 2 1 9).2 = Resp.err 400 msgInvalidTransition := by
  exact ⟨by decide, by decide, by decide, by decide, by decide⟩

/-- A `findOneAndUpdate` whose query has a match returns an updated
document (the image of the first match). -/
theorem findOneAndUpdate_found (store : Store) (q : OrderRec → Bool)
    (f : OrderRec → OrderRec) (o : OrderRec) (h : store.find? q = some o) :
    (findOneAndUpdate store q f).2 = some (f o) := by
  induction store with
  | nil => simp at h
  | cons a rest ih =>
    by_cases hq : q a
    · rw [List.find?_cons_of_pos _ hq] at h
      simp at h
      rw [← h]
      simp [findOneAndUpdate, hq]
    · rw [List.find?_cons_of_neg _ hq] at h
      simp [findOneAndUpdate, hq]
      exact ih h

/-- C7 amended: only `acceptOrder` maps its failure classes to four
distinct stable codes (404 not-found, 403 forbidden, 409 conflict, 400
invalid-state); `startOrder` and `completeOrder` report every failure,
including not-found and forbidden, as the single `400` invalid-transition
response; `rejectOrder` reports a wrong-vendor call as its `400`
invalid-state response; `cancelOrder` never rejects a call for being the
wrong vendor — it succeeds from `accepted`/`in_progress` for any caller. -/
theorem error_code_mapping (store : Store) (v orderId now : Nat) (reason : Option String) :
    (findById store orderId = none →
      acceptOrder store v orderId now = (store, Resp.err 404 msgOrderNotFound)) ∧
    (∀ o, findById store orderId = some o → o.status = Status.assigned →
      o.vendorId ≠ some v →
      acceptOrder store v orderId now = (store, Resp.err 403 msgAssignedToAnother)) ∧
    (∀ o w, findById store orderId = some o → o.status = Status.accepted →
      o.vendorId = some w → w ≠ v →
      acceptOrder store v orderId now = (store, Resp.err 409 msgAlreadyAcceptedByAnother)) ∧
    (∀ o, findById store orderId = some o →
      (o.status = Status.rejected ∨ o.status = Status.in_progress ∨
       o.status = Status.completed ∨ o.status = Status.cancelled ∨
       o.status = Status.payment_requested ∨ o.status = Status.payment_confirmed ∨
       o.status = Status.arrival_confirmed) →
      acceptOrder store v orderId now = (store, Resp.err 400 (cannotAcceptMsg o.status))) ∧
    ((∃ u, (startOrder store v orderId now).2 = Resp.ok u) ∨
      (startOrder store v orderId now).2 = Resp.err 400 msgInvalidTransition) ∧
    ((∃ u, (completeOrder store v orderId now).2 = Resp.ok u) ∨
      (completeOrder store v orderId now).2 = Resp.err 400 msgInvalidTransition) ∧
    (∀ o, findById store orderId = some o → o.status = Status.assigned →
      o.vendorId ≠ some v →
      rejectOrder store v orderId now reason =
        (store, Resp.err 400 (cannotRejectMsg o.status))) ∧
    (∀ o, findById store orderId = some o →
      (o.status = Status.accepted ∨ o.status = Status.in_progress) →
      ∃ u, (cancelOrder store v orderId now reason).2 = Resp.ok u) := by
  refine ⟨?_, ?_, ?_, ?_, ?_, ?_, ?_, ?_⟩
  · intro hfind
    simp [acceptOrder, hfind]
  · intro o hfind hst hv
    simp [acceptOrder, hfind, hst, hv]
  · intro o w hfind hst hv hw
    simp [acceptOrder, hfind, hst, hv, hw]
  · intro o hfind hst
    have h1 : o.status ≠ Status.accepted := by
      rcases hst with h | h | h | h | h | h | h <;> simp [h]
    have h2 : o.status ≠ Status.assigned := by
      rcases hst with h | h | h | h | h | h | h <;> simp [h]
    have h3 : o.status ≠ Status.pending := by
      rcases hst with h | h | h | h | h | h | h <;> simp [h]
    simp [acceptOrder, hfind, h1, h2, h3]
  · rw [startOrder]
    rcases hsu : startUpdate store orderId v now with ⟨s2, r⟩
    cases r with
    | none => exact Or.inr rfl
    | some u => exact Or.inl ⟨u, rfl⟩
  · rw [completeOrder]
    rcases hcu : completeUpdate store orderId v now with ⟨s2, r⟩
    cases r with
    | none => exact Or.inr rfl
    | some u => exact Or.inl ⟨u, rfl⟩
  · intro o hfind hst hv
    have hcond : ¬(o.status = Status.pending ∨
        (o.status = Status.assigned ∧ o.vendorId = some v)) := by
      rw [hst]
      simp
      intro h
      exact absurd h hv
    simp [rejectOrder, hfind, hcond]
  · intro o hfind hst
    rw [cancelOrder, hfind]
    simp [hst]
    have h2 := findOneAndUpdate_found store _
      (fun o2 => { o2 with
        status := Status.cancelled, cancelledAt := some now,
        cancellationReason := some (reason.getD cancelledByVendorDefault),
        cancelledBy := some byVendor }) o (by rw [findById] at hfind; exact hfind)
    rcases hcu : cancelUpdate store orderId now reason with ⟨s2, r⟩
    rw [cancelUpdate] at hcu
    rw [hcu] at h2
    cases r with
    | none => simp at h2
    | some u => exact ⟨u, rfl⟩

theorem error_code_mapping_witness :
    acceptOrder [] 1 1 9 = ([], Resp.err 404 msgOrderNotFound) ∧
    acceptOrder [assignedOrder225] 1 2 9 =
      ([assignedOrder225], Resp.err 403 msgAssignedToAnother) ∧
    acceptOrder [acceptedOrder157] 2 1 9 =
      ([acceptedOrder157], Resp.err 409 msgAlreadyAcceptedByAnother) ∧
    acceptOrder [{ mkOrder 3 Status.completed (some 1) with completedAt := some 8 }] 1 3 9 =
      ([{ mkOrder 3 Status.completed (some 1) with completedAt := some 8 }],
        Resp.err 400 (cannotAcceptMsg Status.completed)) ∧
    (∃ u, (cancelOrder [acceptedOrder157] 5 1 9 none).2 = Resp.ok u) := by
  refine ⟨?_, ?_, ?_, ?_, ?_⟩
  · exact (error_code_mapping [] 1 1 9 none).1 (by decide)
  · exact (error_code_mapping [assignedOrder225] 1 2 9 none).2.1 assignedOrder225
      (by decide) (by decide) (by decide)
  · exact (error_code_mapping [acceptedOrder157] 2 1 9 none).2.2.1 acceptedOrder157 1
      (by decide) (by decide) (by decide) (by decide)
  · have h := (error_code_mapping
      [{ mkOrder 3 Status.completed (some 1) with completedAt := some 8 }] 1 3 9 none).2.2.2.1
      { mkOrder 3 Status.completed (some 1) with completedAt := some 8 }
      (by decide) (Or.inr (Or.inr (Or.inl (by decide))))
    exact h
  · exact (error_code_mapping [acceptedOrder157] 5 1 9 none).2.2.2.2.2.2.2 acceptedOrder157
      (by decide) (Or.inl (by decide))

/-- A concrete taxicab distance function, standing in for the spherical
distance of `$centerSphere`. -/
def gdTaxi : GeoDist := fun a b => ((a.1 - b.1).natAbs + (a.2 - b.2).natAbs)

/-- Online vendor 1, 900 m from the origin, first in the presence index. -/
def presFar : VendorPresence := { vendorId := 1, online := true, loc := (0, 900) }

/-- Online vendor 2, 100 m from the origin, second in the presence index. -/
def presNear : VendorPresence := { vendorId := 2, online := true, loc := (0, 100) }

/-- C4 counterexample: with two online vendors in radius, the dispatcher
selects vendor 1 — the first in index order — although vendor 2 is
nearest; the `$geoWithin` query it issues carries no distance ordering, so
the selection is not nearest-first. -/
theorem dispatcher_not_nearest_first :
    gdTaxi (0, 0) presFar.loc = 900 ∧
    gdTaxi (0, 0) presNear.loc = 100 ∧
    findNearbyOnlineVendors gdTaxi [presFar, presNear] (0, 0) 10000 = [1, 2] ∧
    nearestOnlineVendorSpec gdTaxi [presFar, presNear] (0, 0) 10000 = some 2 ∧
    (assignVendorToOrder gdTaxi [presFar, presNear] [1, 2]
      (mkOrder 1 Status.pending none) 5).2 = some 1 := by
  exact ⟨by decide, by decide, by decide, by decide, by decide⟩

/-- C4 amended: assigning a pending order queries the presence index for
online vendors within the 10 km radius of the pickup point and selects the
first candidate in the order the index returns them (no distance sorting is
requested); with zero candidates the order is left untouched (so a pending
order stays pending) with a no-candidate result rather than an error. -/
theorem assign_picks_first_candidate (gd : GeoDist) (ps : List VendorPresence)
    (vendors : List Nat) (o : OrderRec) (now : Nat) :
    (findNearbyOnlineVendors gd ps o.pickup 10000 =
      ((ps.filter (fun p => p.online && decide (gd o.pickup p.loc ≤ 10000))).take 10).map
        (fun p => p.vendorId)) ∧
    (findNearbyOnlineVendors gd ps o.pickup 10000 = [] →
      assignVendorToOrder gd ps vendors o now = (o, none)) ∧
    (∀ v rest, findNearbyOnlineVendors gd ps o.pickup 10000 = v :: rest →
      vendors.contains v = true →
      assignVendorToOrder gd ps vendors o now =
        ({ o with vendorId := some v, status := Status.assigned,
                  assignedAt := some now }, some v)) := by
  refine ⟨rfl, ?_, ?_⟩
  · intro h
    rw [assignVendorToOrder, h]
  · intro v rest h hv
    rw [assignVendorToOrder, h]
    simp only [hv, if_true]

theorem assign_picks_first_candidate_witness :
    assignVendorToOrder gdTaxi [presFar, presNear] [1, 2]
      (mkOrder 1 Status.pending none) 5 =
      ({ mkOrder 1 Status.pending none with
          vendorId := some 1, status := Status.assigned, assignedAt := some 5 }, some 1) ∧
    assignVendorToOrder gdTaxi [] [1, 2] (mkOrder 1 Status.pending none) 5 =
      (mkOrder 1 Status.pending none, none) := by
  constructor
  · exact (assign_picks_first_candidate gdTaxi [presFar, presNear] [1, 2]
      (mkOrder 1 Status.pending none) 5).2.2 1 [2] (by decide) (by decide)
  · exact (assign_picks_first_candidate gdTaxi [] [1, 2]
      (mkOrder 1 Status.pending none) 5).2.1 (by decide)

theorem mem_insertByCreated (x o : OrderRec) (l : List OrderRec) :
    x ∈ insertByCreated o l ↔ x = o ∨ x ∈ l := by
  induction l with
  | nil => simp [insertByCreated]
  | cons b rest ih =>
    by_cases h : b.createdAt.getD 0 ≤ o.createdAt.getD 0
    · simp [insertByCreated, h]
    · simp [insertByCreated, h, ih]
      tauto

theorem mem_sortByCreatedDesc (x : OrderRec) (l : List OrderRec) :
    x ∈ sortByCreatedDesc l ↔ x ∈ l := by
  induction l with
  | nil => simp [sortByCreatedDesc]
  | cons o rest ih =>
    simp [sortByCreatedDesc, mem_insertByCreated, ih]

/-- Any order matching the base visibility query of the orders service is
the caller's own or an unassigned pending one. -/
theorem baseVendorQuery_true (vendorId : Nat) (o : OrderRec)
    (h : baseVendorQuery vendorId o = true) :
    o.vendorId = some vendorId ∨ (o.vendorId = none ∧ o.status = Status.pending) := by
  rw [baseVendorQuery] at h
  simp only [Bool.or_eq_true, Bool.and_eq_true, decide_eq_true_eq] at h
  exact h

/-- Any order matching the effective list query is the caller's own or an
unassigned pending one. -/
theorem listQuery_true (vendorId : Nat) (sp : StatusParam) (o : OrderRec)
    (h : listQuery vendorId sp o = true) :
    o.vendorId = some vendorId ∨ (o.vendorId = none ∧ o.status = Status.pending) := by
  cases sp with
  | noFilter =>
    simp only [listQuery, normalizeStatusParam] at h
    exact baseVendorQuery_true vendorId o h
  | started =>
    simp only [listQuery, normalizeStatusParam] at h
    rw [if_neg (by decide)] at h
    simp only [Bool.and_eq_true, decide_eq_true_eq] at h
    exact Or.inl h.1
  | exact s =>
    simp only [listQuery, normalizeStatusParam] at h
    by_cases hs : s = Status.pending
    · rw [if_pos hs] at h
      simp only [Bool.and_eq_true, decide_eq_true_eq] at h
      exact Or.inr h
    · rw [if_neg hs] at h
      simp only [Bool.and_eq_true, decide_eq_true_eq] at h
      exact Or.inl h.1

/-- C10: every order returned by `listOrdersForVendor` or
`getOrderForVendor` either is assigned to the requesting vendor or is an
unclaimed pending broadcast order; an order assigned to another vendor is
never returned. -/
theorem vendor_visibility (store : Store) (vendorId orderId : Nat) (sp : StatusParam)
    (limit offset : Nat) (o : OrderRec) :
    (o ∈ (listOrdersForVendor store vendorId sp limit offset).orders →
      o.vendorId = some vendorId ∨ (o.vendorId = none ∧ o.status = Status.pending)) ∧
    (getOrderForVendor store vendorId orderId = some o →
      o.vendorId = some vendorId ∨ (o.vendorId = none ∧ o.status = Status.pending)) := by
  constructor
  · intro hmem
    rw [listOrdersForVendor] at hmem
    simp only at hmem
    have h1 : o ∈ (sortByCreatedDesc (store.filter (listQuery vendorId sp))).drop offset :=
      List.take_subset _ _ hmem
    have h2 : o ∈ sortByCreatedDesc (store.filter (listQuery vendorId sp)) :=
      List.drop_subset _ _ h1
    have h3 : o ∈ store.filter (listQuery vendorId sp) :=
      (mem_sortByCreatedDesc o _).mp h2
    exact listQuery_true vendorId sp o (List.of_mem_filter h3)
  · intro hfind
    have h := List.find?_some hfind
    simp only [Bool.and_eq_true] at h
    exact baseVendorQuery_true vendorId o h.2

theorem vendor_visibility_witness :
    acceptedOrder157 ∈
      (listOrdersForVendor [acceptedOrder157, assignedOrder225, pendingOrder1]
        1 StatusParam.noFilter 0 0).orders ∧
    (acceptedOrder157.vendorId = some 1 ∨
      (acceptedOrder157.vendorId = none ∧ acceptedOrder157.status = Status.pending)) ∧
    getOrderForVendor [acceptedOrder157, assignedOrder225, pendingOrder1] 1 1 =
      some acceptedOrder157 := by
  refine ⟨by decide, ?_, by decide⟩
  exact (vendor_visibility [acceptedOrder157, assignedOrder225, pendingOrder1]
    1 1 StatusParam.noFilter 0 0 acceptedOrder157).1 (by decide)

theorem isSuccessStatus_of_isNonRetryable (x : AttemptResult)
    (h : isNonRetryable x = true) : isSuccessStatus x = false := by
  cases x with
  | http c =>
    simp only [isNonRetryable, decide_eq_true_eq] at h
    simp only [isSuccessStatus, decide_eq_false_iff_not]
    omega
  | netfail => rfl

theorem webhookGo_attempts_le (resp : Nat → AttemptResult) (r : Nat) :
    ∀ a, (webhookGo resp a r).attemptsMade ≤ r := by
  induction r with
  | zero => intro a; simp [webhookGo]
  | succ r2 ih =>
    intro a
    rw [webhookGo]
    by_cases h1 : isSuccessStatus (resp a) = true
    · simp [h1]
    · rw [if_neg h1]
      by_cases h2 : isNonRetryable (resp a) = true
      · simp [h2]
      · rw [if_neg h2]
        by_cases h3 : r2 = 0
        · simp [h3]
        · rw [if_neg h3]
          have := ih (a + 1)
          simp
          omega

theorem webhookGo_success_at (resp : Nat → AttemptResult) (j : Nat) :
    ∀ a r, j < r →
    (∀ i, i < j → isSuccessStatus (resp (a + i)) = false ∧
      isNonRetryable (resp (a + i)) = false) →
    isSuccessStatus (resp (a + j)) = true →
    webhookGo resp a r =
      { success := true, attemptsMade := j + 1,
        delays := (List.range j).map (fun i => (a + i) * 1000) } := by
  induction j with
  | zero =>
    intro a r hj hpre hsucc
    cases r with
    | zero => omega
    | succ r2 =>
      rw [webhookGo, if_pos (by simpa using hsucc)]
      simp
  | succ j ih =>
    intro a r hj hpre hsucc
    cases r with
    | zero => omega
    | succ r2 =>
      have h0 := hpre 0 (Nat.succ_pos j)
      simp only [Nat.add_zero] at h0
      rw [webhookGo, if_neg (by simp [h0.1]), if_neg (by simp [h0.2]),
        if_neg (by omega : ¬r2 = 0)]
      have hpre2 : ∀ i, i < j → isSuccessStatus (resp (a + 1 + i)) = false ∧
          isNonRetryable (resp (a + 1 + i)) = false := by
        intro i hi
        have := hpre (i + 1) (by omega)
        have he : a + (i + 1) = a + 1 + i := by omega
        rw [he] at this
        exact this
      have hsucc2 : isSuccessStatus (resp (a + 1 + j)) = true := by
        have he : a + (j + 1) = a + 1 + j := by omega
        rw [he] at hsucc
        exact hsucc
      rw [ih (a + 1) r2 (by omega) hpre2 hsucc2]
      have hd : (List.range (j + 1)).map (fun i => (a + i) * 1000) =
          a * 1000 :: (List.range j).map (fun i => (a + 1 + i) * 1000) := by
        rw [List.range_succ_eq_map]
        simp only [List.map_cons, List.map_map, Nat.add_zero, List.cons.injEq]
        refine ⟨by trivial, ?_⟩
        apply List.map_congr_left
        intro i _
        simp only [Function.comp_apply]
        omega
      rw [hd]

theorem webhookGo_abort_at (resp : Nat → AttemptResult) (j : Nat) :
    ∀ a r, j < r →
    (∀ i, i < j → isSuccessStatus (resp (a + i)) = false ∧
      isNonRetryable (resp (a + i)) = false) →
    isNonRetryable (resp (a + j)) = true →
    webhookGo resp a r =
      { success := false, attemptsMade := j + 1,
        delays := (List.range j).map (fun i => (a + i) * 1000) } := by
  induction j with
  | zero =>
    intro a r hj hpre habort
    cases r with
    | zero => omega
    | succ r2 =>
      rw [webhookGo,
        if_neg (by simp [isSuccessStatus_of_isNonRetryable _ (by simpa using habort)]),
        if_pos (by simpa using habort)]
      simp
  | succ j ih =>
    intro a r hj hpre habort
    cases r with
    | zero => omega
    | succ r2 =>
      have h0 := hpre 0 (Nat.succ_pos j)
      simp only [Nat.add_zero] at h0
      rw [webhookGo, if_neg (by simp [h0.1]), if_neg (by simp [h0.2]),
        if_neg (by omega : ¬r2 = 0)]
      have hpre2 : ∀ i, i < j → isSuccessStatus (resp (a + 1 + i)) = false ∧
          isNonRetryable (resp (a + 1 + i)) = false := by
        intro i hi
        have := hpre (i + 1) (by omega)
        have he : a + (i + 1) = a + 1 + i := by omega
        rw [he] at this
        exact this
      have habort2 : isNonRetryable (resp (a + 1 + j)) = true := by
        have he : a + (j + 1) = a + 1 + j := by omega
        rw [he] at habort
        exact habort
      rw [ih (a + 1) r2 (by omega) hpre2 habort2]
      have hd : (List.range (j + 1)).map (fun i => (a + i) * 1000) =
          a * 1000 :: (List.range j).map (fun i => (a + 1 + i) * 1000) := by
        rw [List.range_succ_eq_map]
        simp only [List.map_cons, List.map_map, Nat.add_zero, List.cons.injEq]
        refine ⟨by trivial, ?_⟩
        apply List.map_congr_left
        intro i _
        simp only [Function.comp_apply]
        omega
      rw [hd]

/-- An endpoint answering 500, 500, then 200. -/
def resp500x2 : Nat → AttemptResult :=
  fun n => if n ≤ 2 then AttemptResult.http 500 else AttemptResult.http 200

/-- An endpoint answering 400 to every call. -/
def resp400 : Nat → AttemptResult := fun _ => AttemptResult.http 400

/-- C3: `notifyCustomerOrderUpdate` makes at most `retries + 1` HTTP
attempts; a 2xx at attempt k ends the run successfully with exactly k
attempts after backoffs of 1x, 2x, ... the 1000 ms base delay; a plain 4xx
(not 408/429) at attempt k aborts with exactly k attempts; in particular
500,500,200 gives 3 attempts and success, and 400 gives 1 attempt and
failure. -/
theorem webhook_retry_policy :
    (∀ (resp : Nat → AttemptResult) (retries : Nat),
      (notifyCustomerOrderUpdate resp retries).attemptsMade ≤ retries + 1) ∧
    (∀ (resp : Nat → AttemptResult) (retries k : Nat), 1 ≤ k → k ≤ retries + 1 →
      (∀ m, 1 ≤ m → m < k → isSuccessStatus (resp m) = false ∧
        isNonRetryable (resp m) = false) →
      isSuccessStatus (resp k) = true →
      notifyCustomerOrderUpdate resp retries =
        { success := true, attemptsMade := k,
          delays := (List.range (k - 1)).map (fun i => (i + 1) * 1000) }) ∧
    (∀ (resp : Nat → AttemptResult) (retries k : Nat), 1 ≤ k → k ≤ retries + 1 →
      (∀ m, 1 ≤ m → m < k → isSuccessStatus (resp m) = false ∧
        isNonRetryable (resp m) = false) →
      isNonRetryable (resp k) = true →
      notifyCustomerOrderUpdate resp retries =
        { success := false, attemptsMade := k,
          delays := (List.range (k - 1)).map (fun i => (i + 1) * 1000) }) ∧
    notifyCustomerOrderUpdate resp500x2 3 =
      { success := true, attemptsMade := 3, delays := [1000, 2000] } ∧
    notifyCustomerOrderUpdate resp400 3 =
      { success := false, attemptsMade := 1, delays := [] } := by
  refine ⟨?_, ?_, ?_, by decide, by decide⟩
  · intro resp retries
    exact webhookGo_attempts_le resp (retries + 1) 1
  · intro resp retries k hk1 hk2 hpre hsucc
    have hpre2 : ∀ i, i < k - 1 → isSuccessStatus (resp (1 + i)) = false ∧
        isNonRetryable (resp (1 + i)) = false := by
      intro i hi
      exact hpre (1 + i) (by omega) (by omega)
    have hsucc2 : isSuccessStatus (resp (1 + (k - 1))) = true := by
      have he : 1 + (k - 1) = k := by omega
      rw [he]
      exact hsucc
    rw [notifyCustomerOrderUpdate,
      webhookGo_success_at resp (k - 1) 1 (retries + 1) (by omega) hpre2 hsucc2]
    have hk : k - 1 + 1 = k := by omega
    have hd : (List.range (k - 1)).map (fun i => (1 + i) * 1000) =
        (List.range (k - 1)).map (fun i => (i + 1) * 1000) :=
      List.map_congr_left (fun i _ => by omega)
    rw [hk, hd]
  · intro resp retries k hk1 hk2 hpre habort
    have hpre2 : ∀ i, i < k - 1 → isSuccessStatus (resp (1 + i)) = false ∧
        isNonRetryable (resp (1 + i)) = false := by
      intro i hi
      exact hpre (1 + i) (by omega) (by omega)
    have habort2 : isNonRetryable (resp (1 + (k - 1))) = true := by
      have he : 1 + (k - 1) = k := by omega
      rw [he]
      exact habort
    rw [notifyCustomerOrderUpdate,
      webhookGo_abort_at resp (k - 1) 1 (retries + 1) (by omega) hpre2 habort2]
    have hk : k - 1 + 1 = k := by omega
    have hd : (List.range (k - 1)).map (fun i => (1 + i) * 1000) =
        (List.range (k - 1)).map (fun i => (i + 1) * 1000) :=
      List.map_congr_left (fun i _ => by omega)
    rw [hk, hd]

theorem webhook_retry_policy_witness :
    (notifyCustomerOrderUpdate resp500x2 3).attemptsMade ≤ 4 ∧
    notifyCustomerOrderUpdate resp500x2 3 =
      { success := true, attemptsMade := 3,
        delays := (List.range 2).map (fun i => (i + 1) * 1000) } ∧
    notifyCustomerOrderUpdate resp400 3 =
      { success := false, attemptsMade := 1,
        delays := (List.range 0).map (fun i => (i + 1) * 1000) } := by
  refine ⟨webhook_retry_policy.1 resp500x2 3, ?_, ?_⟩
  · exact webhook_retry_policy.2.1 resp500x2 3 3 (by decide) (by decide)
      (fun m h1 h2 => by interval_cases m <;> exact ⟨by decide, by decide⟩)
      (by decide)
  · exact webhook_retry_policy.2.2.1 resp400 3 1 (by decide) (by decide)
      (fun m h1 h2 => by omega) (by decide)
